import Mathlib

/-!
Verification of the Gradio MOS listening-test platform.

Shallow embedding of the core of `aalto-speech/Gradio_MOS_template`:

* `src/utils.py` — `TestCasesSampler.sample_test_cases`;
* `src/main.py` — `MOSTest.sample_test_cases_for_session`, `MOSTest.run_test`
  (the identical session logic of `src/main2.py` is noted where it differs);
* `src/main2.py` — its variant of `sample_test_cases_for_session`;
* `src/pages.py` — the page registry, slider configurations and
  `TestPage.validate_score`;
* `src/analysis/analysis.py` — `check_file_attention_checks`, the per-file
  filter of `load_and_filter_json_files`, and the per-record score
  attribution of `analyze_cmos` and `analyze_per_utterance`.

Randomness (`random.sample`, `random.shuffle`, `random.randint`) is embedded
through an explicit oracle (`SamplerOracle`) whose validity hypotheses state
exactly the documented behaviour of those library functions.  File output is
embedded as a value describing the write (`persist`), and the results
directory as a function `String → Option ResultBundle`.
-/

/-- One trial ("test case") dictionary, as produced by the test-list builders
and consumed by `run_test`.  String-valued keys that may be absent or JSON
`null` are modelled as `""` when the source reads them with a `""`/falsy
default (`ref_system`, `target_system`, `edited_transcript`); the `reference`
slot is `Option` because `run_test` tests it against `None`. -/
structure TestCase where
  type : String
  reference : Option String
  target : String
  ref_system : String
  target_system : String
  swap : Bool
  edited_transcript : String
deriving DecidableEq

/-- One entry of the per-session `results` list built by `run_test`
(main.py:197-223).  `score` is `none` for EMOS entries (where the key is
deleted) and when the submitted string failed to parse as an integer. -/
structure ResponseRecord where
  test_type : String
  reference_audio : Option String
  target_audio : String
  ref_system : String
  target_system : String
  swap : Bool
  score : Option Int
  naturalness_score : Option Int
  editing_score : Option Int
  edited_transcript : Option String
  url_params : List (String × String)
deriving DecidableEq

/-- The JSON object written to `results/<user_id>_results.json`
(main.py:234-238). -/
structure ResultBundle where
  user_id : String
  timestamp : String
  results : List ResponseRecord
deriving DecidableEq

/-- Python truthiness of the `user_id` state (either `None` or a string). -/
def pyTruthy : Option String → Bool
  | none => false
  | some s => s != ""

/-- The keys of `PageFactory.PAGE_CLASSES` (pages.py:275-292).  Creating a
page for any other `type` raises `ValueError`. -/
def knownTypes : List String :=
  ["smos", "SMOS", "smos_instruction", "cmos", "CMOS", "cmos_instruction",
   "attention", "emos", "EMOS", "emos_instruction",
   "nmos", "NMOS", "nmos_instruction", "qmos", "QMOS", "qmos_instruction"]

def knownType (t : String) : Bool := knownTypes.contains t

/-- Types mapped to `EMOSPage` or its subclass `EMOSInstructionPage`. -/
def isEMOSType (t : String) : Bool :=
  ["emos", "EMOS", "emos_instruction"].contains t

/-- Types whose page class derives from `NoReferencePage` (pages.py), i.e.
whose `get_reference_audio` returns `None`. -/
def noReferenceType (t : String) : Bool :=
  ["nmos", "NMOS", "nmos_instruction", "qmos", "QMOS", "qmos_instruction",
   "emos", "EMOS", "emos_instruction"].contains t

/-- Models `get_slider_config` of the page class registered for `t` (pages.py):
`(-3, 3, 0)` for the CMOS family and `(1, 5, 3)` for every other page. -/
def get_slider_config (t : String) : Int × Int × Int :=
  if ["cmos", "CMOS", "cmos_instruction"].contains t then (-3, 3, 0) else (1, 5, 3)

/-- Models `TestPage.validate_score` (pages.py:40-43). -/
def validate_score (t : String) (score : Int) : Bool :=
  decide ((get_slider_config t).1 ≤ score) && decide (score ≤ (get_slider_config t).2.1)

/-- Models `get_reference_audio` of the page built for `tc`: `None` for the
`NoReferencePage` family, otherwise the trial's `reference` slot. -/
def get_reference_audio (tc : TestCase) : Option String :=
  if noReferenceType tc.type then none else tc.reference

/-- Models `needs_reference` as computed at main.py:162 (resp. main2.py:191). -/
def needsReference (tc : TestCase) : Bool :=
  !isEMOSType tc.type && (get_reference_audio tc).isSome

/-- Splitting on a single-character separator (Python `str.split(sep)` /
`str.splitOn` for the one-character separators used in the source), written
by structural recursion on the character list so that proofs can evaluate
it. -/
def splitCharAux (c : Char) : List Char → List Char → List (List Char)
  | [], acc => [acc.reverse]
  | x :: xs, acc =>
    if x = c then acc.reverse :: splitCharAux c xs []
    else splitCharAux c xs (x :: acc)

def pySplitChar (c : Char) (s : String) : List String :=
  (splitCharAux c s.data []).map (fun l => ⟨l⟩)

/-- Python `str.strip()` (ASCII whitespace; Python also strips some unicode
whitespace, which nothing here uses). -/
def pyStrip (s : String) : String :=
  ⟨((s.data.dropWhile Char.isWhitespace).reverse.dropWhile Char.isWhitespace).reverse⟩

/-- Decimal digits accumulator for `pyParseInt`. -/
def pyDigitsAux : List Char → Nat → Option Nat
  | [], acc => some acc
  | c :: cs, acc =>
    if c.isDigit then pyDigitsAux cs (acc * 10 + (c.toNat - 48)) else none

/-- Models Python `int(s)` on a string: surrounding whitespace stripped, an
optional sign, then at least one decimal digit; anything else raises
`ValueError`, modelled as `none`.  (Python additionally accepts underscores
between digits and non-ASCII whitespace; nothing in the repository relies on
those.) -/
def pyParseInt (s : String) : Option Int :=
  match (pyStrip s).data with
  | [] => none
  | ch :: cs =>
    if ch = '-' then
      if cs = [] then none else (pyDigitsAux cs 0).map (fun n => -(n : Int))
    else if ch = '+' then
      if cs = [] then none else (pyDigitsAux cs 0).map (fun n => (n : Int))
    else (pyDigitsAux (ch :: cs) 0).map (fun n => (n : Int))

/-- Models `int(x.split(':')[0]) if x else None` for one score string; `.error` is a
raised `ValueError`/`AttributeError`. -/
def parseScoreStr (s : String) : Except Unit (Option Int) :=
  if s = "" then .ok none
  else
    match pyParseInt ((pySplitChar ':' s).headD s) with
    | some n => .ok (some n)
    | none => .error ()

def parseScoreOpt : Option String → Except Unit (Option Int)
  | none => .ok none
  | some s => parseScoreStr s

/-- The `try`/`except` block of main.py:184-189: both integer extractions run
under one handler, so a failure in either leaves both scores `None`. -/
def parseScores (nat ed : Option String) : Option Int × Option Int :=
  match parseScoreOpt nat, parseScoreOpt ed with
  | .ok a, .ok b => (a, b)
  | _, _ => (none, none)

/-- The `result_entry` dictionary built at main.py:197-223 (main2.py builds
the same entry with `None` instead of `""` defaults, which this model's
`TestCase` fields already absorb).  `url_params` is added only when truthy. -/
def mkRecord (tc : TestCase) (nInt eInt : Option Int)
    (url_params : List (String × String)) : ResponseRecord :=
  if isEMOSType tc.type then
    ⟨tc.type, tc.reference, tc.target, tc.ref_system, tc.target_system, tc.swap,
     none, nInt, eInt, some tc.edited_transcript, url_params⟩
  else
    ⟨tc.type, tc.reference, tc.target, tc.ref_system, tc.target_system, tc.swap,
     nInt, none, none, none, url_params⟩

/-- The progress/guidance message chosen by `run_test`: `keep` is the
unchanged `update()` of the no-op branch, the other constructors carry the
`current_page`/`total_pages` shown in the corresponding f-string. -/
inductive ProgressMsg where
  | keep
  | listenPrompt (cur total : Nat)
  | selectPrompt (cur total : Nat)
  | progressLine (cur total : Nat)
deriving DecidableEq

/-- The path `results/<user_id>_results.json` (main.py:229). -/
def persistPath (uid : String) : String := "results/" ++ uid ++ "_results.json"

/-- The state-bearing outputs of `run_test`: the returned session state
(`test_cases`, `current_page`, `results`, the two played flags), the progress
message, and the file write performed on completion (path and contents),
`none` when no file is written. -/
structure RunOutput where
  progress : ProgressMsg
  test_cases : List TestCase
  current_page : Nat
  results : List ResponseRecord
  ref_audio_played : Bool
  target_audio_played : Bool
  persist : Option (String × ResultBundle)
deriving DecidableEq

/-- Models `MOSTest.run_test` (main.py:132-325); the branch structure of
main2.py:161-354 is identical for everything modelled here.  `now` stands for
`datetime.now().isoformat()`.  The result is `none` when the call raises
(`PageFactory.create_page` on an unknown trial type).  Note that
main.py:191-193 evaluates `validate_score` on the parsed score and discards
the result (`pass`), so no branch below depends on it. -/
def run_test (now : String) (user_id : Option String)
    (naturalness_score : Option String) (ref_audio_played target_audio_played : Bool)
    (editing_score : Option String) (test_cases : List TestCase)
    (current_page : Nat) (results : List ResponseRecord)
    (url_params : List (String × String)) : Option RunOutput :=
  let total_pages := test_cases.length
  if pyTruthy user_id = false ∨ total_pages ≤ current_page then
    some ⟨.keep, test_cases, current_page, results,
          ref_audio_played, target_audio_played, none⟩
  else
    match test_cases[current_page]? with
    | none => none
    | some tc =>
      if knownType tc.type = false then none
      else if target_audio_played = false then
        some ⟨.listenPrompt current_page total_pages, test_cases, current_page,
              results, ref_audio_played, target_audio_played, none⟩
      else if needsReference tc = true ∧ ref_audio_played = false then
        some ⟨.listenPrompt current_page total_pages, test_cases, current_page,
              results, ref_audio_played, target_audio_played, none⟩
      else if naturalness_score = none then
        some ⟨.selectPrompt current_page total_pages, test_cases, current_page,
              results, ref_audio_played, target_audio_played, none⟩
      else
        let si := parseScores naturalness_score editing_score
        let entry := mkRecord tc si.1 si.2 url_params
        let results2 := results ++ [entry]
        let cp2 := current_page + 1
        if total_pages ≤ cp2 then
          let uid := user_id.getD ""
          some ⟨.progressLine cp2 total_pages, test_cases, cp2, results2,
                false, false, some (persistPath uid, ⟨uid, now, results2⟩)⟩
        else
          match test_cases[cp2]? with
          | none => none
          | some nextTc =>
            if knownType nextTc.type = false then none
            else
              some ⟨.progressLine cp2 total_pages, test_cases, cp2, results2,
                    false, false, none⟩

/-- One press of "Submit Rating": the two score radio values and the two
played flags at the moment of submission. -/
structure Submission where
  naturalness : Option String
  editing : Option String
  refPlayed : Bool
  tgtPlayed : Bool
deriving DecidableEq

/-- A submission that `run_test` accepts at trial `tc`: target audio played,
reference audio played when the page needs one, and a non-`None` score
selection. -/
def accepted (tc : TestCase) (sub : Submission) : Bool :=
  sub.tgtPlayed && (!needsReference tc || sub.refPlayed) && sub.naturalness.isSome

/-- The `result_entry` recorded for submission `sub` at trial `tc`
(with empty `url_params`). -/
def subRecord (tc : TestCase) (sub : Submission) : ResponseRecord :=
  mkRecord tc (parseScores sub.naturalness sub.editing).1
    (parseScores sub.naturalness sub.editing).2 []

def sessionRecords (tcs : List TestCase) (subs : List Submission) : List ResponseRecord :=
  List.zipWith subRecord tcs subs

/-- Iterates `run_test` over a list of submissions, threading the session
state exactly as the Gradio `submit_score.click` wiring does (the returned
`current_page`/`results` states feed the next call), and collecting every
file write that occurs.  `none` when some call raises. -/
def runSession (now : String) (user_id : Option String) (test_cases : List TestCase) :
    List Submission → Nat → List ResponseRecord → List (String × ResultBundle) →
    Option (Nat × List ResponseRecord × List (String × ResultBundle))
  | [], cp, res, per => some (cp, res, per)
  | sub :: subs, cp, res, per =>
    match run_test now user_id sub.naturalness sub.refPlayed sub.tgtPlayed sub.editing
        test_cases cp res [] with
    | none => none
    | some out =>
      runSession now user_id test_cases subs out.current_page out.results
        (per ++ out.persist.toList)

/-- The results directory, keyed by path; `fsWrite` is `open(filename, "w")`
followed by `json.dump`: it replaces whatever was at that path. -/
def fsWrite (fs : String → Option ResultBundle) (path : String) (b : ResultBundle) :
    String → Option ResultBundle :=
  fun p => if p = path then some b else fs p

/-- The source of randomness consumed by the samplers: `pick l k` models
`random.sample(l, k)`, `shuffle l` models an in-place `random.shuffle(l)`,
and `randint i a b` models the `i`-th call of `random.randint(a, b)`. -/
structure SamplerOracle where
  pick : List TestCase → Nat → List TestCase
  shuffle : List TestCase → List TestCase
  randint : Nat → Nat → Nat → Nat

/-- The documented behaviour of the three library calls: `random.sample`
returns `k` elements chosen without replacement (a permutation of a sublist),
`random.shuffle` permutes its list, and `random.randint(a, b)` returns a
value in `[a, b]` (inclusive). -/
def SamplerOracle.Valid (R : SamplerOracle) : Prop :=
  (∀ l k, k < l.length → (R.pick l k).length = k ∧ List.Subperm (R.pick l k) l) ∧
  (∀ l, List.Perm (R.shuffle l) l) ∧
  (∀ i a b, a ≤ b → a ≤ R.randint i a b ∧ R.randint i a b ≤ b)

/-- The per-group body of the loop in `TestCasesSampler.sample_test_cases`
(utils.py:47-51): take the whole group when it has at most
`sample_size_per_test` members, otherwise `random.sample` that many. -/
def sampleGroup (R : SamplerOracle) (k : Nat) (cases : List TestCase) : List TestCase :=
  if cases.length ≤ k then cases else R.pick cases k

/-- Models `TestCasesSampler.sample_test_cases` (utils.py:37-53).  The catalog is the
loaded JSON: an association list from test-type key to its list of comparison
groups (JSON object keys are distinct, so the `defaultdict` accumulation is a
per-key concatenation of the group samples, in catalog order). -/
def sample_test_cases (R : SamplerOracle) (k : Nat)
    (catalog : List (String × List (List TestCase))) : List (String × List TestCase) :=
  catalog.map (fun e => (e.1, (e.2.map (sampleGroup R k)).flatten))

/-- Python `list.insert` clamps its index to the list length. -/
def pyInsert {α : Type} (i : Nat) (a : α) (l : List α) : List α :=
  l.insertIdx (min i l.length) a

/-- The list `MOSTest.attention_checks` (main.py:17-28): two identical attention
trials. -/
def attentionCheckCase : TestCase :=
  ⟨"attention", some "audios/attention_high.wav", "audios/attention_high.wav",
   "", "", false, ""⟩

def attention_checks : List TestCase := [attentionCheckCase, attentionCheckCase]

/-- The list `MOSTest.instruction_pages` (main.py:29-40). -/
def instruction_pages : List TestCase :=
  [⟨"smos_instruction", some "audios/1.wav", "audios/1.wav", "", "", false, ""⟩,
   ⟨"cmos_instruction", some "audios/4.wav", "audios/4.wav", "", "", false, ""⟩]

/-- The attention-insertion loop of main.py:50-54: the `i`-th check is
inserted at `random.randint(int(0.25 * len(l)), int(0.9 * len(l)))` computed
on the current, growing list.  For list lengths below 2^52 the float
expressions `int(0.25 * n)` and `int(0.9 * n)` equal the exact floors
`n / 4` and `9 * n / 10` (0.25 is an exact double, and the relative error of
double `0.9 * n` is far too small to move the truncation across an
integer). -/
def insertAttentionChecks (R : SamplerOracle) : Nat → List TestCase → List TestCase → List TestCase
  | _, l, [] => l
  | i, l, a :: as =>
    insertAttentionChecks R (i + 1)
      (pyInsert (R.randint i (l.length / 4) (9 * l.length / 10)) a l) as

/-- Models `MOSTest.sample_test_cases_for_session` (main.py:42-56): sample the
catalog, shuffle each test type's list, flatten, insert the two attention
checks, and prepend the instruction pages. -/
def sample_test_cases_for_session (R : SamplerOracle) (k : Nat)
    (catalog : List (String × List (List TestCase))) : List TestCase :=
  let questions := sample_test_cases R k catalog
  let base := (questions.map (fun q => R.shuffle q.2)).flatten
  instruction_pages ++ insertAttentionChecks R 0 base attention_checks

/-- The count `len(instruction trials) + sum over groups of min(len(group), k)` --
the trial-count bookkeeping the spec states for sampled sessions. -/
def groupsMinSum (k : Nat) (catalog : List (String × List (List TestCase))) : Nat :=
  (catalog.map (fun e => (e.2.map (fun g => min g.length k)).sum)).sum

/-- Models `defaultdict(list)` access-then-mutate: `f` is applied to the existing
value of `key`, or to a fresh `[]` appended at the end of the dict's key
order when `key` is absent (main2.py:55-68 mutates `questions[k]`). -/
def ddModify (q : List (String × List TestCase)) (key : String)
    (f : List TestCase → List TestCase) : List (String × List TestCase) :=
  if (q.find? (fun e => e.1 == key)).isSome then
    q.map (fun e => if e.1 == key then (e.1, f e.2) else e)
  else q ++ [(key, f [])]

/-- The `match instruction["type"]` body of main2.py:55-68: SMOS/CMOS buckets
are shuffled and then get the instruction at index 0; QMOS buckets get it at
index 0 unshuffled; any other instruction type is skipped with a warning. -/
def main2ApplyInstruction (R : SamplerOracle) (q : List (String × List TestCase))
    (instr : TestCase) : List (String × List TestCase) :=
  if instr.type = "smos_instruction" then ddModify q "SMOS" (fun l => instr :: R.shuffle l)
  else if instr.type = "cmos_instruction" then ddModify q "CMOS" (fun l => instr :: R.shuffle l)
  else if instr.type = "qmos_instruction" then ddModify q "QMOS" (fun l => instr :: l)
  else if instr.type = "qmos_negative_instruction" then ddModify q "QMOS" (fun l => instr :: l)
  else q

/-- The attention-insertion loop of main2.py:76-83: the `i`-th sampled check
is inserted at `random.randint(math.floor(0.2*(i+1)*len), math.floor(0.2*(i+2)*len))`
on the current, growing list.  The Nat floors `(i+1)*n/5` and `(i+2)*n/5`
agree with the float expressions at every list length exercised below (double
`0.2*(i+1)*n` differs from the rational by far less than its distance to the
next integer there). -/
def main2InsertAttention (R : SamplerOracle) : Nat → List TestCase → List TestCase → List TestCase
  | _, l, [] => l
  | i, l, a :: as =>
    main2InsertAttention R (i + 1)
      (pyInsert (R.randint i ((i + 1) * l.length / 5) ((i + 2) * l.length / 5)) a l) as

/-- Models `MOSTest.sample_test_cases_for_session` of main2.py:49-85: sample the
catalog, splice the configured instruction pages into their type buckets,
flatten without shuffling, then insert `num_attention = 3` checks sampled
from the configured pool.  (Unlike main.py, nothing is prepended at the
end: the commented-out line 84.) -/
def main2_sample_test_cases_for_session (R : SamplerOracle) (k : Nat)
    (catalog : List (String × List (List TestCase)))
    (instructions : List TestCase) (attentionPool : List TestCase) : List TestCase :=
  let questions := sample_test_cases R k catalog
  let questions2 := instructions.foldl (main2ApplyInstruction R) questions
  let base := (questions2.map (fun q => q.2)).flatten
  main2InsertAttention R 0 base (R.pick attentionPool 3)

/-- Models `os.path.basename` for the forward-slash paths used throughout the
repository. -/
def pyBasename (s : String) : String := (pySplitChar '/' s).getLastD ""

/-- The root part of `os.path.splitext(b)` for a basename `b` (no
separators): the extension starts at the last dot, unless every character
before that dot is itself a dot (leading-dot files have no extension). -/
def joinWithDot : List String → String
  | [] => ""
  | [p] => p
  | p :: ps => p ++ "." ++ joinWithDot ps

def pySplitextRoot (b : String) : String :=
  let parts := pySplitChar '.' b
  match parts with
  | [] => b
  | [_] => b
  | _ =>
    let ini := parts.dropLast
    if ini.all (fun p => p = "") then b else joinWithDot ini

/-- Models `int(os.path.splitext(os.path.basename(path))[0].split("_")[-1])`
(analysis.py:16): the expected attention score encoded in the audio filename;
`none` when `int` raises `ValueError`. -/
def attentionExpectedScore (audio_path : String) : Option Int :=
  pyParseInt ((pySplitChar '_' (pySplitextRoot (pyBasename audio_path))).getLastD "")

/-- Models `check_file_attention_checks` (analysis.py:10-22), with `.error` marking
a raised exception: `os.path.basename(None)` when the attention record's
`reference_audio` is null, or `int` failing on a filename whose last `_`
token is not an integer.  A mismatch found before such a record returns
`False` without raising, exactly as the source loop does. -/
def check_file_attention_checks : List ResponseRecord → Except Unit Bool
  | [] => .ok true
  | r :: rs =>
    if r.test_type = "attention" then
      match r.reference_audio with
      | none => .error ()
      | some path =>
        match attentionExpectedScore path with
        | none => .error ()
        | some expected =>
          if r.score ≠ some expected then .ok false
          else check_file_attention_checks rs
    else check_file_attention_checks rs

/-- The per-file decision of `load_and_filter_json_files` (analysis.py:37-61):
a bundle's records enter `valid_results` only when `check_file_attention_checks`
returns `True`; a `False` result or a raised exception excludes the file. -/
def includeBundle (b : ResultBundle) : Bool :=
  match check_file_attention_checks b.results with
  | .ok true => true
  | _ => false

/-- The records a bundle contributes to `valid_results` (analysis.py:45-56):
its CMOS/SMOS records when it passes the attention checks, nothing
otherwise. -/
def bundleValidResults (b : ResultBundle) : List ResponseRecord :=
  if includeBundle b then
    b.results.filter (fun r => r.test_type == "CMOS" || r.test_type == "SMOS")
  else []

/-- What the claim's wording asks of a bundle: every attention record's score
equals the integer parsed from the last `_`-separated token of its audio
filename. -/
def attentionAllCorrect (rs : List ResponseRecord) : Prop :=
  ∀ r ∈ rs, r.test_type = "attention" →
    ∃ path exp, r.reference_audio = some path ∧
      attentionExpectedScore path = some exp ∧ r.score = some exp

/-- The per-record body of the `analyze_cmos` loop (analysis.py:87-100): the
`(target_system, score)` pair appended to `cmos_data`, or `none` when the
record is skipped.  A swapped record is credited to `ref_system` with its
score negated.  (A null score would raise later, in the mean computation;
no claim exercises that.) -/
def cmosRecordContribution (r : ResponseRecord) : Option (String × Option Int) :=
  if r.test_type ≠ "CMOS" then none
  else
    let p := if r.swap then (r.ref_system, r.score.map (fun s => -s))
             else (r.target_system, r.score)
    if p.1 = "" then none else some p

/-- One `(utterance, system, test_type, score)` contribution collected by
`analyze_per_utterance`. -/
structure UttContrib where
  utterance : String
  system : String
  test_type : String
  score : Option Int
deriving DecidableEq

/-- The record loop of `analyze_per_utterance` (analysis.py:221-247), with the
Python local variable `score` threaded explicitly (second argument): in the
swap branch the source executes `score = -score` *before* the later
`score = result['score']` (line 238), so the negation either raises
`UnboundLocalError` (`.error`, when no earlier record assigned `score`) or is
computed from the previous record's stale value and immediately overwritten —
the appended score is always the raw `result['score']`. -/
def analyze_per_utterance_loop :
    List ResponseRecord → Option Int → List UttContrib → Except Unit (List UttContrib)
  | [], _, acc => .ok acc
  | r :: rs, scoreVar, acc =>
    if r.test_type = "CMOS" ∨ r.test_type = "SMOS" then
      if r.swap then
        match scoreVar with
        | none => .error ()
        | some v =>
          let _negatedThenDiscarded : Int := -v
          match r.reference_audio with
          | none => .error ()
          | some audio =>
            let utt := pySplitextRoot (pyBasename audio)
            if r.ref_system = "" then analyze_per_utterance_loop rs r.score acc
            else analyze_per_utterance_loop rs r.score
              (acc ++ [⟨utt, r.ref_system, r.test_type, r.score⟩])
      else
        let utt := pySplitextRoot (pyBasename r.target_audio)
        if r.target_system = "" then analyze_per_utterance_loop rs r.score acc
        else analyze_per_utterance_loop rs r.score
          (acc ++ [⟨utt, r.target_system, r.test_type, r.score⟩])
    else analyze_per_utterance_loop rs scoreVar acc

/-- The contributions `analyze_per_utterance` collects from a result list
(starting with the local `score` unbound and nothing collected). -/
def analyze_per_utterance_contribs (results : List ResponseRecord) :
    Except Unit (List UttContrib) :=
  analyze_per_utterance_loop results none []

/-! ## Helper lemmas -/

/-- Lemma: `pyInsert` always lengthens the list by one (the clamped index is in
range), matching Python `list.insert`. -/
theorem pyInsert_length {α : Type} (i : Nat) (a : α) (l : List α) :
    (pyInsert i a l).length = l.length + 1 := by
  unfold pyInsert
  exact List.length_insertIdx _ _ (Nat.min_le_right _ _)

theorem sampleGroup_length (R : SamplerOracle) (hR : R.Valid) (k : Nat)
    (g : List TestCase) : (sampleGroup R k g).length = min g.length k := by
  unfold sampleGroup
  by_cases h : g.length ≤ k
  · rw [if_pos h, Nat.min_eq_left h]
  · rw [if_neg h, (hR.1 g k (Nat.lt_of_not_le h)).1,
      Nat.min_eq_right (Nat.le_of_not_le h)]

theorem insertAttentionChecks_length (R : SamplerOracle) :
    ∀ (as : List TestCase) (i : Nat) (l : List TestCase),
      (insertAttentionChecks R i l as).length = l.length + as.length := by
  intro as
  induction as with
  | nil => intro i l; rfl
  | cons a as ih =>
    intro i l
    rw [insertAttentionChecks, ih, pyInsert_length, List.length_cons]
    omega

/-- Evaluation of `run_test` on an accepted submission: the response is
recorded, the cursor advances by one, the played flags reset, and the file
write happens exactly when the cursor reaches the trial count. -/
theorem run_test_accepted_eq (now : String) (u : Option String) (sub : Submission)
    (tcs : List TestCase) (cp : Nat) (res : List ResponseRecord)
    (hu : pyTruthy u = true) (hcp : cp < tcs.length)
    (hk : knownType (tcs[cp]).type = true)
    (hk2 : ∀ _h2 : cp + 1 < tcs.length, knownType (tcs[cp + 1]).type = true)
    (hacc : accepted tcs[cp] sub = true) :
    run_test now u sub.naturalness sub.refPlayed sub.tgtPlayed sub.editing tcs cp res [] =
      some ⟨.progressLine (cp + 1) tcs.length, tcs, cp + 1,
            res ++ [subRecord tcs[cp] sub], false, false,
            if tcs.length ≤ cp + 1 then
              some (persistPath (u.getD ""),
                    ⟨u.getD "", now, res ++ [subRecord tcs[cp] sub]⟩)
            else none⟩ := by
  have hsub := hacc
  unfold accepted at hsub
  rw [Bool.and_eq_true, Bool.and_eq_true, Bool.or_eq_true] at hsub
  obtain ⟨⟨htp, href⟩, hns⟩ := hsub
  unfold run_test
  rw [if_neg (by push_neg; exact ⟨by simp [hu], hcp⟩)]
  rw [List.getElem?_eq_getElem hcp]
  simp only
  rw [if_neg (by simp [hk])]
  rw [if_neg (by simp [htp])]
  rw [if_neg (by
    rintro ⟨hnr, hrp⟩
    rcases href with h | h
    · rw [Bool.not_eq_true', hnr] at h; exact absurd h (by simp)
    · rw [h] at hrp; exact absurd hrp (by simp))]
  rw [if_neg (by
    intro h
    rw [h] at hns; exact absurd hns (by simp [Option.isSome]))]
  by_cases hend : tcs.length ≤ cp + 1
  · rw [if_pos hend, if_pos hend]
    rfl
  · rw [if_neg hend, if_neg hend]
    have hlt : cp + 1 < tcs.length := Nat.lt_of_not_le hend
    rw [List.getElem?_eq_getElem hlt]
    simp only
    rw [if_neg (by simp [hk2 hlt])]
    rfl

/-- Running a block of accepted submissions from cursor `cp`: the cursor
advances once per submission, the records of the visited trials are appended
in presentation order, and exactly one write occurs — at the step where the
cursor reaches the trial count — and none earlier. -/
theorem runSession_go (now : String) (u : Option String) (tcs : List TestCase)
    (hu : pyTruthy u = true)
    (hall : ∀ j, (_hj : j < tcs.length) → knownType (tcs[j]).type = true) :
    ∀ (subs : List Submission) (cp : Nat) (res : List ResponseRecord)
      (per : List (String × ResultBundle)),
      cp + subs.length ≤ tcs.length →
      (∀ i, (hi : i < subs.length) → (hci : cp + i < tcs.length) →
        accepted tcs[cp + i] subs[i] = true) →
      runSession now u tcs subs cp res per =
        some (cp + subs.length,
              res ++ sessionRecords ((tcs.drop cp).take subs.length) subs,
              per ++ (if subs.length ≠ 0 ∧ cp + subs.length = tcs.length then
                        [(persistPath (u.getD ""),
                          ⟨u.getD "", now,
                           res ++ sessionRecords ((tcs.drop cp).take subs.length) subs⟩)]
                      else [])) := by
  intro subs
  induction subs with
  | nil =>
    intro cp res per _ _
    simp [runSession, sessionRecords]
  | cons sub subs ih =>
    intro cp res per hbound hacc
    have hcp : cp < tcs.length := by
      have := hbound; simp only [List.length_cons] at this; omega
    have hacc0 : accepted tcs[cp] sub = true := by
      have := hacc 0 (by simp) (by omega)
      simpa using this
    have hstep := run_test_accepted_eq now u sub tcs cp res hu hcp (hall cp hcp)
      (fun h2 => hall (cp + 1) h2) hacc0
    rw [runSession, hstep]
    simp only
    have hdrop : tcs.drop cp = tcs[cp] :: tcs.drop (cp + 1) :=
      List.drop_eq_getElem_cons hcp
    by_cases hend : tcs.length ≤ cp + 1
    · -- the cursor reaches the trial count at this step, forcing subs = []
      have hlen0 : subs.length = 0 := by
        simp only [List.length_cons] at hbound; omega
      have hsubs : subs = [] := List.length_eq_zero.mp hlen0
      subst hsubs
      rw [if_pos hend]
      rw [runSession]
      simp only [List.length_cons, List.length_nil]
      rw [hdrop]
      simp only [List.take_succ_cons, List.take_zero, sessionRecords,
        List.zipWith_cons_cons, List.zipWith_nil_right]
      have hL : cp + 1 = tcs.length := by omega
      rw [if_pos ⟨by omega, hL⟩]
      simp [hL, Option.toList]
    · rw [if_neg hend]
      have hlt : cp + 1 < tcs.length := Nat.lt_of_not_le hend
      have ihx := ih (cp + 1) (res ++ [subRecord tcs[cp] sub]) per
        (by simp only [List.length_cons] at hbound; omega)
        (by
          intro i hi hci
          have h := hacc (i + 1) (by simp; omega) (by omega)
          simp only [show cp + (i + 1) = cp + 1 + i from by omega,
            List.getElem_cons_succ] at h
          exact h)
      rw [Option.toList_none, List.append_nil, ihx]
      rw [hdrop]
      simp only [List.length_cons, List.take_succ_cons, sessionRecords,
        List.zipWith_cons_cons]
      have h1 : cp + (subs.length + 1) = cp + 1 + subs.length := by omega
      rw [h1]
      have h2 : res ++ subRecord tcs[cp] sub ::
          List.zipWith subRecord ((tcs.drop (cp + 1)).take subs.length) subs =
          res ++ [subRecord tcs[cp] sub] ++
            List.zipWith subRecord ((tcs.drop (cp + 1)).take subs.length) subs := by
        simp
      rw [h2]
      congr 2
      by_cases hif : subs.length ≠ 0 ∧ cp + 1 + subs.length = tcs.length
      · rw [if_pos hif, if_pos ⟨by omega, by omega⟩]
      · rw [if_neg hif, if_neg (by
          rintro ⟨hne, heq⟩
          rcases Nat.eq_zero_or_pos subs.length with hz | hpos
          · omega
          · exact hif ⟨by omega, by omega⟩)]

/-! ## Concrete material for witnesses and counterexamples -/

def exampleCmosTrial : TestCase :=
  ⟨"CMOS", some "audios/r.wav", "audios/t.wav", "sysA", "sysB", false, ""⟩

def exampleSmosTrial : TestCase :=
  ⟨"SMOS", some "audios/r2.wav", "audios/t2.wav", "sysA", "sysB", false, ""⟩

/-! ## C10 — guard branch is a no-op -/

/-- C10: with a falsy `user_id` or a cursor at or past the trial count,
`run_test` returns the input `test_cases`, cursor and `results` unchanged,
passes both played flags through, emits no message and writes no file. -/
theorem c10_guard_noop (now : String) (u ns es : Option String) (rp tp : Bool)
    (tcs : List TestCase) (cp : Nat) (res : List ResponseRecord)
    (ups : List (String × String))
    (h : pyTruthy u = false ∨ tcs.length ≤ cp) :
    run_test now u ns rp tp es tcs cp res ups =
      some ⟨.keep, tcs, cp, res, rp, tp, none⟩ := by
  unfold run_test
  rw [if_pos h]

/-- C10 witness: concrete no-op calls — `user_id = None`, and a cursor past
the end. -/
theorem c10_witness :
    run_test "T" none (some "2: b") true true none [exampleCmosTrial] 0 [] [] =
      some ⟨.keep, [exampleCmosTrial], 0, [], true, true, none⟩ ∧
    run_test "T" (some "u@x.com") (some "2: b") false false none [exampleCmosTrial] 3 [] [] =
      some ⟨.keep, [exampleCmosTrial], 3, [], false, false, none⟩ :=
  ⟨c10_guard_noop "T" none (some "2: b") none true true [exampleCmosTrial] 0 [] []
     (Or.inl rfl),
   c10_guard_noop "T" (some "u@x.com") (some "2: b") none false false [exampleCmosTrial] 3 [] []
     (Or.inr (by decide))⟩

/-! ## C5 — incomplete submissions leave the session unchanged -/

/-- C5: when the target audio (or, on a trial needing a reference, the
reference audio) was not played to completion, or no score was selected,
`run_test` leaves the trial list, cursor, results and played flags unchanged,
writes nothing, and produces a progress/guidance message. -/
theorem c5_incomplete_submission_unchanged (now : String) (u ns es : Option String)
    (rp tp : Bool) (tcs : List TestCase) (cp : Nat) (res : List ResponseRecord)
    (ups : List (String × String))
    (hu : pyTruthy u = true) (hcp : cp < tcs.length)
    (hk : knownType (tcs[cp]).type = true)
    (hrej : tp = false ∨ (needsReference tcs[cp] = true ∧ rp = false) ∨ ns = none) :
    ∃ out, run_test now u ns rp tp es tcs cp res ups = some out ∧
      out.test_cases = tcs ∧ out.current_page = cp ∧ out.results = res ∧
      out.ref_audio_played = rp ∧ out.target_audio_played = tp ∧
      out.persist = none ∧
      (out.progress = .listenPrompt cp tcs.length ∨
       out.progress = .selectPrompt cp tcs.length) := by
  unfold run_test
  rw [if_neg (by push_neg; exact ⟨by simp [hu], hcp⟩)]
  rw [List.getElem?_eq_getElem hcp]
  simp only
  rw [if_neg (by simp [hk])]
  by_cases htp : tp = false
  · rw [if_pos htp]
    exact ⟨_, rfl, rfl, rfl, rfl, rfl, rfl, rfl, Or.inl rfl⟩
  · rw [if_neg htp]
    by_cases hnr : needsReference tcs[cp] = true ∧ rp = false
    · rw [if_pos hnr]
      exact ⟨_, rfl, rfl, rfl, rfl, rfl, rfl, rfl, Or.inl rfl⟩
    · rw [if_neg hnr]
      have hns : ns = none := by
        rcases hrej with h | h | h
        · exact absurd h htp
        · exact absurd h hnr
        · exact h
      rw [if_pos hns]
      exact ⟨_, rfl, rfl, rfl, rfl, rfl, rfl, rfl, Or.inr rfl⟩

/-- C5 witness: a CMOS trial whose reference audio was not finished — state
kept, guidance message emitted. -/
theorem c5_witness :
    ∃ out, run_test "T" (some "u@x.com") (some "2: b") false true none
        [exampleCmosTrial] 0 [] [] = some out ∧
      out.test_cases = [exampleCmosTrial] ∧ out.current_page = 0 ∧ out.results = [] ∧
      out.ref_audio_played = false ∧ out.target_audio_played = true ∧
      out.persist = none ∧
      (out.progress = .listenPrompt 0 1 ∨ out.progress = .selectPrompt 0 1) :=
  c5_incomplete_submission_unchanged "T" (some "u@x.com") (some "2: b") none
    false true [exampleCmosTrial] 0 [] [] (by decide) (by decide) (by decide)
    (Or.inr (Or.inl ⟨by decide, rfl⟩))

/-! ## C1 — score-range validation is computed but never enforced -/

/-- C1 counterexample: a CMOS trial (scale `[-3, 3]`) with submitted score
string `"4: ..."` — `validate_score` is false, yet `run_test` records the
response with score `4` and advances the cursor, instead of rejecting the
submission and leaving cursor and responses unchanged. -/
theorem c1_counterexample :
    validate_score "CMOS" 4 = false ∧
    run_test "T" (some "u@x.com") (some "4: target much better") true true none
        [exampleCmosTrial, exampleSmosTrial] 0 [] [] =
      some ⟨.progressLine 1 2, [exampleCmosTrial, exampleSmosTrial], 1,
            [⟨"CMOS", some "audios/r.wav", "audios/t.wav", "sysA", "sysB", false,
              some 4, none, none, none, []⟩],
            false, false, none⟩ :=
  ⟨by decide, by decide⟩

/-- C1 (amended): an out-of-range submission is *not* rejected —
main.py:191-193 computes `validate_score` and discards the result — so every
submission that passes the playback and score-selection checks is recorded
and advances the cursor by exactly 1, whether or not the parsed score lies in
the current page's scale. -/
theorem c1_validation_discarded (now : String) (u : Option String) (sub : Submission)
    (tcs : List TestCase) (cp : Nat) (res : List ResponseRecord)
    (hu : pyTruthy u = true) (hcp : cp < tcs.length)
    (hk : knownType (tcs[cp]).type = true)
    (hk2 : ∀ _h2 : cp + 1 < tcs.length, knownType (tcs[cp + 1]).type = true)
    (hacc : accepted tcs[cp] sub = true) :
    ∃ out, run_test now u sub.naturalness sub.refPlayed sub.tgtPlayed sub.editing
        tcs cp res [] = some out ∧
      out.current_page = cp + 1 ∧
      out.results = res ++ [subRecord tcs[cp] sub] :=
  ⟨_, run_test_accepted_eq now u sub tcs cp res hu hcp hk hk2 hacc, rfl, rfl⟩

/-- C1 witness: the amended theorem applied to a concrete out-of-range
submission (`9` on the CMOS scale `[-3, 3]`). -/
theorem c1_witness :
    validate_score "CMOS" 9 = false ∧
    ∃ out, run_test "T" (some "user@example.com") (some "9: x") true true none
        [exampleCmosTrial] 0 [] [] = some out ∧
      out.current_page = 0 + 1 ∧
      out.results = [] ++ [subRecord exampleCmosTrial ⟨some "9: x", none, true, true⟩] :=
  ⟨by decide,
   c1_validation_discarded "T" (some "user@example.com") ⟨some "9: x", none, true, true⟩
     [exampleCmosTrial] 0 [] (by decide) (by decide) (by decide)
     (fun h2 => absurd h2 (by decide)) (by decide)⟩

/-! ## C3 / C4 — completion persists exactly one bundle -/

theorem zipWith_take_left_of_le {α β γ : Type} (f : α → β → γ) :
    ∀ (l1 : List α) (l2 : List β) (n : Nat), l2.length ≤ n →
      List.zipWith f (l1.take n) l2 = List.zipWith f l1 l2 := by
  intro l1
  induction l1 with
  | nil => intro l2 n _; simp
  | cons a l1 ih =>
    intro l2 n h
    cases l2 with
    | nil => simp
    | cons b l2 =>
      cases n with
      | zero => simp at h
      | succ n =>
        simp only [List.take_succ_cons, List.zipWith_cons_cons]
        rw [ih l2 n (by simpa using h)]

/-- A full run of accepted submissions over every trial of a session persists
exactly one bundle, holding the records of all trials in presentation
order. -/
theorem runSession_complete (now : String) (u : Option String)
    (tcs : List TestCase) (subs : List Submission)
    (hu : pyTruthy u = true) (hpos : 0 < tcs.length)
    (hlen : subs.length = tcs.length)
    (hall : ∀ j, (_hj : j < tcs.length) → knownType (tcs[j]).type = true)
    (hacc : ∀ i, (hi : i < subs.length) → (hci : i < tcs.length) →
      accepted tcs[i] subs[i] = true) :
    runSession now u tcs subs 0 [] [] =
      some (tcs.length, sessionRecords tcs subs,
            [(persistPath (u.getD ""),
              ⟨u.getD "", now, sessionRecords tcs subs⟩)]) := by
  have h := runSession_go now u tcs hu hall subs 0 [] [] (by omega)
    (fun i hi hci => by simpa using hacc i hi (by omega))
  rw [h]
  simp only [List.drop_zero, Nat.zero_add, List.nil_append]
  rw [hlen, List.take_length]
  rw [if_pos ⟨by omega, rfl⟩]

/-- C3: running a session of length `L` to completion with accepted
submissions produces exactly one write, a bundle holding exactly the `L`
records in trial order, and the run of the first `L - 1` submissions has
produced no write at all. -/
theorem c3_completion_persist (now : String) (u : Option String)
    (tcs : List TestCase) (subs : List Submission)
    (hu : pyTruthy u = true) (hpos : 0 < tcs.length)
    (hlen : subs.length = tcs.length)
    (hall : ∀ j, (_hj : j < tcs.length) → knownType (tcs[j]).type = true)
    (hacc : ∀ i, (hi : i < subs.length) → (hci : i < tcs.length) →
      accepted tcs[i] subs[i] = true) :
    runSession now u tcs subs 0 [] [] =
      some (tcs.length, sessionRecords tcs subs,
            [(persistPath (u.getD ""),
              ⟨u.getD "", now, sessionRecords tcs subs⟩)]) ∧
    (sessionRecords tcs subs).length = tcs.length ∧
    runSession now u tcs (subs.take (tcs.length - 1)) 0 [] [] =
      some (tcs.length - 1, sessionRecords tcs (subs.take (tcs.length - 1)), []) := by
  refine ⟨runSession_complete now u tcs subs hu hpos hlen hall hacc, ?_, ?_⟩
  · unfold sessionRecords
    rw [List.length_zipWith]
    omega
  · have hlen1 : (subs.take (tcs.length - 1)).length = tcs.length - 1 := by
      rw [List.length_take]; omega
    have h := runSession_go now u tcs hu hall (subs.take (tcs.length - 1)) 0 [] []
      (by omega)
      (fun i hi hci => by
        rw [hlen1] at hi
        have hisubs : i < subs.length := by omega
        have := hacc i hisubs (by omega)
        simpa [List.getElem_take] using this)
    rw [h]
    simp only [List.drop_zero, Nat.zero_add, List.nil_append]
    rw [hlen1]
    rw [if_neg (by rintro ⟨h1, h2⟩; omega)]
    rw [show List.take (tcs.length - 1) tcs = tcs.take (tcs.length - 1) from rfl]
    unfold sessionRecords
    rw [zipWith_take_left_of_le _ tcs (subs.take (tcs.length - 1)) (tcs.length - 1)
      (by omega)]

/-- C3 witness: a concrete two-trial session run to completion. -/
theorem c3_witness :
    runSession "T" (some "u@x.com") [exampleCmosTrial, exampleSmosTrial]
        [⟨some "2: b", none, true, true⟩, ⟨some "5: s", none, true, true⟩] 0 [] [] =
      some (2,
            sessionRecords [exampleCmosTrial, exampleSmosTrial]
              [⟨some "2: b", none, true, true⟩, ⟨some "5: s", none, true, true⟩],
            [(persistPath "u@x.com",
              ⟨"u@x.com", "T",
               sessionRecords [exampleCmosTrial, exampleSmosTrial]
                 [⟨some "2: b", none, true, true⟩, ⟨some "5: s", none, true, true⟩]⟩)]) ∧
    (sessionRecords [exampleCmosTrial, exampleSmosTrial]
      [⟨some "2: b", none, true, true⟩, ⟨some "5: s", none, true, true⟩]).length = 2 ∧
    runSession "T" (some "u@x.com") [exampleCmosTrial, exampleSmosTrial]
        [⟨some "2: b", none, true, true⟩] 0 [] [] =
      some (1,
            sessionRecords [exampleCmosTrial, exampleSmosTrial]
              [⟨some "2: b", none, true, true⟩], []) :=
  c3_completion_persist "T" (some "u@x.com") [exampleCmosTrial, exampleSmosTrial]
    [⟨some "2: b", none, true, true⟩, ⟨some "5: s", none, true, true⟩]
    (by decide) (by decide) (by decide) (by decide)
    (by
      intro i hi hci
      rcases i with _ | _ | i
      · exact (by decide :
          accepted exampleCmosTrial ⟨some "2: b", none, true, true⟩ = true)
      · exact (by decide :
          accepted exampleSmosTrial ⟨some "5: s", none, true, true⟩ = true)
      · simp only [List.length_cons, List.length_nil] at hi
        omega)

/-- C4: two completed sessions with the same `user_id` both write to the one
deterministic path `results/<user_id>_results.json`, and after both writes
the directory holds, at that path, exactly the second session's bundle — the
first session's records are gone, never merged. -/
theorem c4_last_write_wins (fs0 : String → Option ResultBundle)
    (now1 now2 : String) (u : Option String)
    (tcs1 tcs2 : List TestCase) (subs1 subs2 : List Submission)
    (hu : pyTruthy u = true)
    (hpos1 : 0 < tcs1.length) (hlen1 : subs1.length = tcs1.length)
    (hall1 : ∀ j, (_hj : j < tcs1.length) → knownType (tcs1[j]).type = true)
    (hacc1 : ∀ i, (hi : i < subs1.length) → (hci : i < tcs1.length) →
      accepted tcs1[i] subs1[i] = true)
    (hpos2 : 0 < tcs2.length) (hlen2 : subs2.length = tcs2.length)
    (hall2 : ∀ j, (_hj : j < tcs2.length) → knownType (tcs2[j]).type = true)
    (hacc2 : ∀ i, (hi : i < subs2.length) → (hci : i < tcs2.length) →
      accepted tcs2[i] subs2[i] = true) :
    runSession now1 u tcs1 subs1 0 [] [] =
      some (tcs1.length, sessionRecords tcs1 subs1,
            [(persistPath (u.getD ""),
              ⟨u.getD "", now1, sessionRecords tcs1 subs1⟩)]) ∧
    runSession now2 u tcs2 subs2 0 [] [] =
      some (tcs2.length, sessionRecords tcs2 subs2,
            [(persistPath (u.getD ""),
              ⟨u.getD "", now2, sessionRecords tcs2 subs2⟩)]) ∧
    fsWrite (fsWrite fs0 (persistPath (u.getD ""))
        ⟨u.getD "", now1, sessionRecords tcs1 subs1⟩)
      (persistPath (u.getD "")) ⟨u.getD "", now2, sessionRecords tcs2 subs2⟩
      (persistPath (u.getD "")) =
      some ⟨u.getD "", now2, sessionRecords tcs2 subs2⟩ := by
  refine ⟨runSession_complete now1 u tcs1 subs1 hu hpos1 hlen1 hall1 hacc1,
          runSession_complete now2 u tcs2 subs2 hu hpos2 hlen2 hall2 hacc2, ?_⟩
  unfold fsWrite
  rw [if_pos rfl]

/-- C4 witness: the same participant completes two one-trial sessions; the
stored file afterwards holds only the second session's records. -/
theorem c4_witness :
    runSession "T1" (some "u@x.com") [exampleCmosTrial]
        [⟨some "2: b", none, true, true⟩] 0 [] [] =
      some (1, sessionRecords [exampleCmosTrial] [⟨some "2: b", none, true, true⟩],
            [(persistPath "u@x.com",
              ⟨"u@x.com", "T1",
               sessionRecords [exampleCmosTrial] [⟨some "2: b", none, true, true⟩]⟩)]) ∧
    runSession "T2" (some "u@x.com") [exampleSmosTrial]
        [⟨some "4: s", none, true, true⟩] 0 [] [] =
      some (1, sessionRecords [exampleSmosTrial] [⟨some "4: s", none, true, true⟩],
            [(persistPath "u@x.com",
              ⟨"u@x.com", "T2",
               sessionRecords [exampleSmosTrial] [⟨some "4: s", none, true, true⟩]⟩)]) ∧
    fsWrite (fsWrite (fun _ => none) (persistPath "u@x.com")
        ⟨"u@x.com", "T1", sessionRecords [exampleCmosTrial] [⟨some "2: b", none, true, true⟩]⟩)
      (persistPath "u@x.com")
      ⟨"u@x.com", "T2", sessionRecords [exampleSmosTrial] [⟨some "4: s", none, true, true⟩]⟩
      (persistPath "u@x.com") =
      some ⟨"u@x.com", "T2",
            sessionRecords [exampleSmosTrial] [⟨some "4: s", none, true, true⟩]⟩ :=
  c4_last_write_wins (fun _ => none) "T1" "T2" (some "u@x.com")
    [exampleCmosTrial] [exampleSmosTrial]
    [⟨some "2: b", none, true, true⟩] [⟨some "4: s", none, true, true⟩]
    (by decide) (by decide) (by decide) (by decide)
    (by
      intro i hi hci
      rcases i with _ | i
      · exact (by decide :
          accepted exampleCmosTrial ⟨some "2: b", none, true, true⟩ = true)
      · simp only [List.length_cons, List.length_nil] at hi
        omega)
    (by decide) (by decide) (by decide)
    (by
      intro i hi hci
      rcases i with _ | i
      · exact (by decide :
          accepted exampleSmosTrial ⟨some "4: s", none, true, true⟩ = true)
      · simp only [List.length_cons, List.length_nil] at hi
        omega)

/-! ## C2 / C7 — sampling bookkeeping -/

/-- C2: for every admissible realization of the randomness, a session sampled
by main.py contains the instruction trials, plus `min(len(group), k)` trials
for every comparison group of every test type, plus the inserted attention
checks — nothing more, nothing less. -/
theorem c2_session_length (R : SamplerOracle) (k : Nat)
    (catalog : List (String × List (List TestCase))) (hR : R.Valid) :
    (sample_test_cases_for_session R k catalog).length =
      instruction_pages.length + groupsMinSum k catalog + attention_checks.length := by
  unfold sample_test_cases_for_session
  rw [List.length_append, insertAttentionChecks_length]
  have hbase :
      (((sample_test_cases R k catalog).map (fun q => R.shuffle q.2)).flatten).length =
        groupsMinSum k catalog := by
    rw [List.length_flatten]
    unfold sample_test_cases groupsMinSum
    rw [List.map_map, List.map_map]
    congr 1
    refine List.map_congr_left ?_
    intro e _
    simp only [Function.comp]
    rw [(hR.2.1 _).length_eq, List.length_flatten, List.map_map]
    congr 1
    refine List.map_congr_left ?_
    intro g _
    simp only [Function.comp]
    exact sampleGroup_length R hR k g
  rw [hbase]
  omega

/-- The lower-bound oracle: `random.sample` takes the first `k` elements,
`random.shuffle` leaves the list alone, `random.randint(a, b)` returns `a`.
One admissible realization of the randomness, used to instantiate the
universally quantified sampling theorems. -/
def loOracle : SamplerOracle :=
  ⟨fun l k => l.take k, fun l => l, fun _ a _ => a⟩

theorem loOracle_valid : loOracle.Valid := by
  refine ⟨?_, ?_, ?_⟩
  · intro l k hk
    refine ⟨?_, (List.take_sublist k l).subperm⟩
    show (l.take k).length = k
    rw [List.length_take]
    omega
  · intro l
    exact List.Perm.refl l
  · intro i a b hab
    exact ⟨Nat.le_refl a, hab⟩

/-- A small concrete catalog: two CMOS groups (3 and 2 trials) and one SMOS
group (1 trial). -/
def exampleCatalog : List (String × List (List TestCase)) :=
  [("CMOS", [[exampleCmosTrial, exampleCmosTrial, exampleCmosTrial],
             [exampleCmosTrial, exampleCmosTrial]]),
   ("SMOS", [[exampleSmosTrial]])]

/-- C2 witness: with `sample_size_per_test = 2`, the session always has
`2 + (2 + 2 + 1) + 2 = 9` trials. -/
theorem c2_witness :
    (sample_test_cases_for_session loOracle 2 exampleCatalog).length =
      instruction_pages.length + groupsMinSum 2 exampleCatalog + attention_checks.length :=
  c2_session_length loOracle 2 exampleCatalog loOracle_valid

/-- C7: each comparison group contributes exactly `min(len(group), k)` trials
to `sample_test_cases` — its own members, drawn without replacement (the
contribution is a permutation of a sublist of the group, so no member is
used more often than the group holds it, and a duplicate-free group yields a
duplicate-free contribution) — and a group with fewer than `k` items is
passed through whole, without error. -/
theorem c7_group_contribution (R : SamplerOracle) (k : Nat) (g : List TestCase)
    (hR : R.Valid) :
    (sampleGroup R k g).length = min g.length k ∧
    List.Subperm (sampleGroup R k g) g ∧
    (∀ a : TestCase, (sampleGroup R k g).count a ≤ g.count a) ∧
    (g.Nodup → (sampleGroup R k g).Nodup) ∧
    (g.length ≤ k → sampleGroup R k g = g) := by
  have hsub : List.Subperm (sampleGroup R k g) g := by
    unfold sampleGroup
    by_cases h : g.length ≤ k
    · rw [if_pos h]
    · rw [if_neg h]
      exact (hR.1 g k (Nat.lt_of_not_le h)).2
  refine ⟨sampleGroup_length R hR k g, hsub, fun a => hsub.count_le a, ?_, ?_⟩
  · intro hnd
    obtain ⟨l, hperm, hsl⟩ := hsub
    exact hperm.nodup (hnd.sublist hsl)
  · intro h
    unfold sampleGroup
    rw [if_pos h]

/-- C7 witness: a three-trial group sampled at `k = 2`, and a one-trial group
sampled at `k = 2` (silent truncation). -/
theorem c7_witness :
    ((sampleGroup loOracle 2 [exampleCmosTrial, exampleCmosTrial, exampleCmosTrial]).length =
        min 3 2 ∧
      (sampleGroup loOracle 2 [exampleSmosTrial]).length = min 1 2) ∧
    ([exampleSmosTrial].length ≤ 2 →
      sampleGroup loOracle 2 [exampleSmosTrial] = [exampleSmosTrial]) :=
  ⟨⟨(c7_group_contribution loOracle 2 _ loOracle_valid).1,
    (c7_group_contribution loOracle 2 [exampleSmosTrial] loOracle_valid).1⟩,
   (c7_group_contribution loOracle 2 [exampleSmosTrial] loOracle_valid).2.2.2.2⟩

/-! ## C6 — attention-check placement -/

theorem getElem?_insertIdx_self {α : Type} (l : List α) (x : α) (n : Nat)
    (h : n ≤ l.length) : (l.insertIdx n x)[n]? = some x := by
  rw [List.getElem?_eq_getElem (by rw [List.length_insertIdx n l h]; omega)]
  rw [List.getElem_insertIdx_self l x n h]

theorem getElem?_insertIdx_lt {α : Type} (l : List α) (x : α) (n q : Nat)
    (hq : q < n) (hql : q < l.length) : (l.insertIdx n x)[q]? = l[q]? := by
  rw [List.getElem?_eq_getElem hql,
    List.getElem?_eq_getElem (l := l.insertIdx n x)
      (Nat.lt_of_lt_of_le hql (List.length_le_length_insertIdx l x n))]
  rw [List.getElem_insertIdx_of_lt l x n q hq hql]

theorem getElem?_insertIdx_add_succ {α : Type} (l : List α) (x : α) (n q : Nat)
    (hnq : n ≤ q) (hql : q < l.length) : (l.insertIdx n x)[q + 1]? = l[q]? := by
  obtain ⟨d, rfl⟩ : ∃ d, q = n + d := ⟨q - n, by omega⟩
  rw [List.getElem?_eq_getElem hql,
    List.getElem?_eq_getElem (l := l.insertIdx n x)
      (by rw [List.length_insertIdx n l (by omega)]; omega)]
  rw [List.getElem_insertIdx_add_succ l x n d hql]

/-- The flattened, per-type-shuffled trial list of main.py:44-48, before
attention checks and instruction pages are added. -/
def sessionBaseList (R : SamplerOracle) (k : Nat)
    (catalog : List (String × List (List TestCase))) : List TestCase :=
  ((sample_test_cases R k catalog).map (fun q => R.shuffle q.2)).flatten

/-- The (clamped) index at which main.py inserts the first attention check:
`random.randint(int(0.25 * n), int(0.9 * n))` on the base list of length
`n`. -/
def attnIdx1 (R : SamplerOracle) (k : Nat)
    (catalog : List (String × List (List TestCase))) : Nat :=
  min (R.randint 0 ((sessionBaseList R k catalog).length / 4)
        (9 * (sessionBaseList R k catalog).length / 10))
    (sessionBaseList R k catalog).length

/-- The (clamped) index of the second insertion, computed on the list of
length `n + 1` produced by the first. -/
def attnIdx2 (R : SamplerOracle) (k : Nat)
    (catalog : List (String × List (List TestCase))) : Nat :=
  min (R.randint 1 (((sessionBaseList R k catalog).length + 1) / 4)
        (9 * ((sessionBaseList R k catalog).length + 1) / 10))
    ((sessionBaseList R k catalog).length + 1)

/-- The final position of the first inserted attention check in the returned
session: its insertion index, shifted by one when the second check lands at
or before it, plus the two prepended instruction pages. -/
def attnPos1 (R : SamplerOracle) (k : Nat)
    (catalog : List (String × List (List TestCase))) : Nat :=
  if attnIdx2 R k catalog ≤ attnIdx1 R k catalog then attnIdx1 R k catalog + 3
  else attnIdx1 R k catalog + 2

/-- The final position of the second inserted attention check. -/
def attnPos2 (R : SamplerOracle) (k : Nat)
    (catalog : List (String × List (List TestCase))) : Nat :=
  attnIdx2 R k catalog + 2

theorem session_as_insertIdx (R : SamplerOracle) (k : Nat)
    (catalog : List (String × List (List TestCase))) :
    sample_test_cases_for_session R k catalog =
      instruction_pages ++
        ((sessionBaseList R k catalog).insertIdx (attnIdx1 R k catalog)
            attentionCheckCase).insertIdx (attnIdx2 R k catalog) attentionCheckCase := by
  unfold sample_test_cases_for_session sessionBaseList attnIdx1 attnIdx2 attention_checks
  simp only [insertAttentionChecks, pyInsert, pyInsert_length]
  rw [List.length_insertIdx _ _ (Nat.min_le_right _ _)]
  simp only [sessionBaseList, Nat.zero_add]

theorem attnIdx1_bounds (R : SamplerOracle) (k : Nat)
    (catalog : List (String × List (List TestCase))) (hR : R.Valid) :
    (sessionBaseList R k catalog).length / 4 ≤ attnIdx1 R k catalog ∧
    attnIdx1 R k catalog ≤ 9 * (sessionBaseList R k catalog).length / 10 := by
  have h := hR.2.2 0 ((sessionBaseList R k catalog).length / 4)
    (9 * (sessionBaseList R k catalog).length / 10) (by omega)
  unfold attnIdx1
  omega

theorem attnIdx2_bounds (R : SamplerOracle) (k : Nat)
    (catalog : List (String × List (List TestCase))) (hR : R.Valid) :
    ((sessionBaseList R k catalog).length + 1) / 4 ≤ attnIdx2 R k catalog ∧
    attnIdx2 R k catalog ≤ 9 * ((sessionBaseList R k catalog).length + 1) / 10 := by
  have h := hR.2.2 1 (((sessionBaseList R k catalog).length + 1) / 4)
    (9 * ((sessionBaseList R k catalog).length + 1) / 10) (by omega)
  unfold attnIdx2
  omega

/-- C6 (amended): for main.py's sampler every inserted attention check ends
up, in the final returned sequence of length `L`, at a position strictly
between `0.25·L` and `0.9·L` (stated exactly: `L < 4·pos` and `10·pos < 9·L`),
for every realization of the randomness and any catalog.  The main2.py
variant does not satisfy the `0.25·L` lower bound — see the counterexample. -/
theorem c6_mainpy_attention_window (R : SamplerOracle) (k : Nat)
    (catalog : List (String × List (List TestCase))) (hR : R.Valid) :
    (sample_test_cases_for_session R k catalog)[attnPos1 R k catalog]? =
        some attentionCheckCase ∧
    (sample_test_cases_for_session R k catalog)[attnPos2 R k catalog]? =
        some attentionCheckCase ∧
    attnPos1 R k catalog ≠ attnPos2 R k catalog ∧
    (sample_test_cases_for_session R k catalog).length < 4 * attnPos1 R k catalog ∧
    10 * attnPos1 R k catalog < 9 * (sample_test_cases_for_session R k catalog).length ∧
    (sample_test_cases_for_session R k catalog).length < 4 * attnPos2 R k catalog ∧
    10 * attnPos2 R k catalog < 9 * (sample_test_cases_for_session R k catalog).length := by
  have hb1 := attnIdx1_bounds R k catalog hR
  have hb2 := attnIdx2_bounds R k catalog hR
  have hi1n : attnIdx1 R k catalog ≤ (sessionBaseList R k catalog).length := by omega
  have hi2n : attnIdx2 R k catalog ≤ (sessionBaseList R k catalog).length + 1 := by omega
  have hl1 : ((sessionBaseList R k catalog).insertIdx (attnIdx1 R k catalog)
      attentionCheckCase).length = (sessionBaseList R k catalog).length + 1 :=
    List.length_insertIdx _ _ hi1n
  have hl2 : (((sessionBaseList R k catalog).insertIdx (attnIdx1 R k catalog)
      attentionCheckCase).insertIdx (attnIdx2 R k catalog) attentionCheckCase).length =
      (sessionBaseList R k catalog).length + 2 := by
    rw [List.length_insertIdx _ _ (by omega : attnIdx2 R k catalog ≤
      ((sessionBaseList R k catalog).insertIdx (attnIdx1 R k catalog)
        attentionCheckCase).length), hl1]
  have h2 : instruction_pages.length = 2 := rfl
  have hLen : (sample_test_cases_for_session R k catalog).length =
      (sessionBaseList R k catalog).length + 4 := by
    rw [session_as_insertIdx, List.length_append, hl2, h2]
    omega
  have hselfapp : ∀ q : Nat,
      (sample_test_cases_for_session R k catalog)[q + 2]? =
        (((sessionBaseList R k catalog).insertIdx (attnIdx1 R k catalog)
          attentionCheckCase).insertIdx (attnIdx2 R k catalog) attentionCheckCase)[q]? := by
    intro q
    rw [session_as_insertIdx, List.getElem?_append_right (by omega), h2]
    simp
  refine ⟨?_, ?_, by unfold attnPos1 attnPos2; split <;> omega, ?_, ?_, ?_, ?_⟩
  · unfold attnPos1
    by_cases hc : attnIdx2 R k catalog ≤ attnIdx1 R k catalog
    · rw [if_pos hc]
      rw [show attnIdx1 R k catalog + 3 = attnIdx1 R k catalog + 1 + 2 from rfl]
      rw [hselfapp]
      rw [getElem?_insertIdx_add_succ _ _ _ _ hc (by omega)]
      exact getElem?_insertIdx_self _ _ _ hi1n
    · rw [if_neg hc]
      rw [show attnIdx1 R k catalog + 2 = attnIdx1 R k catalog + 2 from rfl]
      rw [hselfapp]
      rw [getElem?_insertIdx_lt _ _ _ _ (by omega) (by omega)]
      exact getElem?_insertIdx_self _ _ _ hi1n
  · unfold attnPos2
    rw [hselfapp]
    exact getElem?_insertIdx_self _ _ _ (by omega)
  · rw [hLen]; unfold attnPos1; split <;> omega
  · rw [hLen]; unfold attnPos1; split <;> omega
  · rw [hLen]; unfold attnPos2; omega
  · rw [hLen]; unfold attnPos2; omega

/-- C6 witness for the amended theorem: the concrete catalog and the
lower-bound oracle. -/
theorem c6_witness :
    (sample_test_cases_for_session loOracle 2 exampleCatalog)[attnPos1 loOracle 2 exampleCatalog]? =
        some attentionCheckCase ∧
    (sample_test_cases_for_session loOracle 2 exampleCatalog)[attnPos2 loOracle 2 exampleCatalog]? =
        some attentionCheckCase ∧
    attnPos1 loOracle 2 exampleCatalog ≠ attnPos2 loOracle 2 exampleCatalog ∧
    (sample_test_cases_for_session loOracle 2 exampleCatalog).length <
        4 * attnPos1 loOracle 2 exampleCatalog ∧
    10 * attnPos1 loOracle 2 exampleCatalog <
        9 * (sample_test_cases_for_session loOracle 2 exampleCatalog).length ∧
    (sample_test_cases_for_session loOracle 2 exampleCatalog).length <
        4 * attnPos2 loOracle 2 exampleCatalog ∧
    10 * attnPos2 loOracle 2 exampleCatalog <
        9 * (sample_test_cases_for_session loOracle 2 exampleCatalog).length :=
  c6_mainpy_attention_window loOracle 2 exampleCatalog loOracle_valid

/-- An attention trial as configured for main2.py (the pool is supplied by
the Hydra config). -/
def main2AttnCase : TestCase :=
  ⟨"attention", some "audios/attention_5.wav", "audios/attention_5.wav",
   "", "", false, ""⟩

/-- One CMOS bucket of 40 trials, sampled whole (`k = 40`). -/
def main2ExampleCatalog : List (String × List (List TestCase)) :=
  [("CMOS", [List.replicate 40 exampleCmosTrial])]

/-- A concrete main2.py session: no instruction pages, a three-check pool,
and the lower-bound realization of the randomness (`randint` returns the
window's lower edge). -/
def main2ExampleSession : List TestCase :=
  main2_sample_test_cases_for_session loOracle 40 main2ExampleCatalog []
    (List.replicate 3 main2AttnCase)

/-- C6 counterexample: in the (perfectly admissible) main2.py session above,
the final sequence has length `L = 43` and an inserted attention check sits
at position 8 — but `4 · 8 = 32 < 43`, i.e. position 8 is *below* `0.25·L`,
outside the claimed window.  (main2.py draws the first check's position from
`[⌊0.2·n⌋, ⌊0.4·n⌋]` of the *current* length `n = 40`, which reaches below
`0.25` of the final length.)  The base catalog contains no attention trials,
so the trial at position 8 is an inserted check. -/
theorem c6_counterexample :
    loOracle.Valid ∧
    main2ExampleSession.length = 43 ∧
    main2ExampleSession[8]? = some main2AttnCase ∧
    main2AttnCase.type = "attention" ∧
    (∀ tc ∈ List.replicate 40 exampleCmosTrial, tc.type = "CMOS") ∧
    4 * 8 < main2ExampleSession.length :=
  ⟨loOracle_valid, by decide, by decide, rfl, by decide, by decide⟩

/-! ## C8 — swap correction in the Analyzer -/

/-- A plain (unswapped) CMOS record on utterance `uttT`, credited to the
target system `sysB` with its raw score. -/
def exampleCmosRecordPlain : ResponseRecord :=
  ⟨"CMOS", some "audios/uttR.wav", "audios/uttT.wav", "sysA", "sysB", false,
   some 1, none, none, none, []⟩

/-- The spec's example record: `{ref_system: "A", target_system: "B",
swap: true, score: 2}`. -/
def exampleCmosRecordSwap : ResponseRecord :=
  ⟨"CMOS", some "audios/uttR.wav", "audios/uttT.wav", "A", "B", true,
   some 2, none, none, none, []⟩

/-- C8: the system-level aggregation (`analyze_cmos`) does apply the swap
correction — the example record contributes score `-2` to system `"A"` — but
the per-utterance aggregation does *not*: its `score = -score` runs before
`score = result['score']`, so with the swapped record first the loop raises
`UnboundLocalError`, and with any record before it the swapped record
contributes its *raw* score `2` to system `"A"`, never `-2`. -/
theorem c8_swap_correction_divergence :
    cmosRecordContribution exampleCmosRecordSwap = some ("A", some (-2)) ∧
    analyze_per_utterance_contribs [exampleCmosRecordSwap] = .error () ∧
    analyze_per_utterance_contribs [exampleCmosRecordPlain, exampleCmosRecordSwap] =
      .ok [⟨"uttT", "sysB", "CMOS", some 1⟩, ⟨"uttR", "A", "CMOS", some 2⟩] :=
  ⟨by decide, rfl, rfl⟩

/-! ## C9 — the Analyzer's attention gate -/

theorem includeBundle_eq_true_iff (b : ResultBundle) :
    includeBundle b = true ↔ check_file_attention_checks b.results = .ok true := by
  unfold includeBundle
  rcases h : check_file_attention_checks b.results with e | bv
  · simp [h]
  · cases bv <;> simp [h]

theorem check_file_ok_true_iff (rs : List ResponseRecord) :
    check_file_attention_checks rs = .ok true ↔ attentionAllCorrect rs := by
  induction rs with
  | nil =>
    simp only [check_file_attention_checks]
    constructor
    · intro _ r hr
      exact absurd hr (List.not_mem_nil r)
    · intro _
      trivial
  | cons r rs ih =>
    simp only [check_file_attention_checks]
    by_cases hat : r.test_type = "attention"
    · rw [if_pos hat]
      rcases href : r.reference_audio with _ | path
      · constructor
        · intro h; exact absurd h (by simp)
        · intro h
          obtain ⟨path, exp, hp, _, _⟩ := h r (List.mem_cons_self r rs) hat
          rw [href] at hp
          exact absurd hp (by simp)
      · simp only []
        rcases hexp : attentionExpectedScore path with _ | expected
        · constructor
          · intro h; exact absurd h (by simp)
          · intro h
            obtain ⟨path2, exp, hp, hx, _⟩ := h r (List.mem_cons_self r rs) hat
            rw [href] at hp
            obtain rfl : path = path2 := by simpa using hp
            rw [hexp] at hx
            exact absurd hx (by simp)
        · simp only []
          by_cases hs : r.score ≠ some expected
          · rw [if_pos hs]
            constructor
            · intro h; exact absurd h (by simp)
            · intro h
              obtain ⟨path2, exp, hp, hx, hsc⟩ := h r (List.mem_cons_self r rs) hat
              rw [href] at hp
              obtain rfl : path = path2 := by simpa using hp
              rw [hexp] at hx
              obtain rfl : expected = exp := by simpa using hx
              exact absurd hsc hs
          · rw [if_neg hs]
            rw [ih]
            unfold attentionAllCorrect
            rw [List.forall_mem_cons]
            constructor
            · intro h
              refine ⟨fun _ => ⟨path, expected, href, hexp, by
                push_neg at hs; exact hs⟩, h⟩
            · intro h; exact h.2
    · rw [if_neg hat]
      rw [ih]
      unfold attentionAllCorrect
      rw [List.forall_mem_cons]
      constructor
      · intro h; exact ⟨fun hat2 => absurd hat2 hat, h⟩
      · intro h; exact h.2

/-- C9: the Analyzer keeps a persisted bundle's records if and only if every
attention record in it scores exactly the integer encoded after the last `_`
of its attention audio's filename; a bundle with any mismatch (or an
undecodable filename) contributes nothing at all; and in the core session
flow an attention trial's submission is recorded and advances the cursor like
any other accepted submission, whatever its score — attention failures raise
nothing there. -/
theorem c9_attention_gate :
    (∀ b : ResultBundle, includeBundle b = true ↔ attentionAllCorrect b.results) ∧
    (∀ b : ResultBundle, includeBundle b = false → bundleValidResults b = []) ∧
    (∀ (now : String) (u : Option String) (sub : Submission) (tcs : List TestCase)
        (cp : Nat) (res : List ResponseRecord),
      pyTruthy u = true → ∀ (hcp : cp < tcs.length), (tcs[cp]).type = "attention" →
      (∀ _h2 : cp + 1 < tcs.length, knownType (tcs[cp + 1]).type = true) →
      accepted tcs[cp] sub = true →
      ∃ out, run_test now u sub.naturalness sub.refPlayed sub.tgtPlayed sub.editing
          tcs cp res [] = some out ∧
        out.current_page = cp + 1 ∧ out.results = res ++ [subRecord tcs[cp] sub]) := by
  refine ⟨?_, ?_, ?_⟩
  · intro b
    rw [includeBundle_eq_true_iff]
    exact check_file_ok_true_iff b.results
  · intro b h
    unfold bundleValidResults
    rw [if_neg (by simp [h])]
  · intro now u sub tcs cp res hu hcp hat hk2 hacc
    have hk : knownType (tcs[cp]).type = true := by rw [hat]; decide
    exact ⟨_, run_test_accepted_eq now u sub tcs cp res hu hcp hk hk2 hacc, rfl, rfl⟩

/-- A bundle that passes the attention gate: the encoded expected score `5`
was submitted. -/
def examplePassBundle : ResultBundle :=
  ⟨"u@x.com", "T",
   [⟨"attention", some "audios/attention_5.wav", "audios/attention_5.wav",
     "", "", false, some 5, none, none, none, []⟩,
    exampleCmosRecordPlain]⟩

/-- A bundle that fails it: the same attention trial scored `3`. -/
def exampleFailBundle : ResultBundle :=
  ⟨"u@x.com", "T",
   [⟨"attention", some "audios/attention_5.wav", "audios/attention_5.wav",
     "", "", false, some 3, none, none, none, []⟩,
    exampleCmosRecordPlain]⟩

/-- C9 witness: the gate applied to a passing and a failing bundle, and a
wrong-scored attention submission accepted by the core flow. -/
theorem c9_witness :
    attentionAllCorrect examplePassBundle.results ∧
    bundleValidResults exampleFailBundle = [] ∧
    (∃ out, run_test "T" (some "u@x.com") (some "1: very different") true true none
        [attentionCheckCase] 0 [] [] = some out ∧
      out.current_page = 0 + 1 ∧
      out.results = [] ++ [subRecord attentionCheckCase
        ⟨some "1: very different", none, true, true⟩]) :=
  ⟨(c9_attention_gate.1 examplePassBundle).mp (by decide),
   c9_attention_gate.2.1 exampleFailBundle (by decide),
   c9_attention_gate.2.2 "T" (some "u@x.com")
     ⟨some "1: very different", none, true, true⟩ [attentionCheckCase] 0 []
     (by decide) (by decide) (by decide)
     (fun h2 => absurd h2 (by decide)) (by decide)⟩
